import Mathlib

/-
Shallow embedding of the step/section navigator implemented in
src/src/utils/observer.js (the initObserver closure).

Modelling choices:
- Step templates, outside templates, sections and the four outside layers
  are static data (read once from the document, never mutated).
- The navigator's mutable closure state (sectionIndex, stepIndex,
  isAnimating, activeOutside) together with the DOM subtrees it owns
  (device content children, mounted outside nodes) form the machine state.
- GSAP tweens/timeline callbacks are modelled as an explicit queue of
  pending completion callbacks; firing a pending entry runs the
  corresponding onComplete body.  Scheduling order is the queue order,
  which matches the real completion order on every path the navigator
  produces (exit tweens are scheduled before the section-swap callback and
  before the device fade, whose own completion spawns the enter tween).
  The invariants proved below are also shown for completions fired in an
  arbitrary order (NavEvent.complete k fires the k-th pending callback).
- Starting a tween is recorded in an append-only effect log, so that
  no-op claims (no animation started) are the statement that the log is
  unchanged.
- gsap.killTweensOf(deviceContent.children) (observer.js:184) removes the
  pending device fade/enter callbacks; gsap.killTweensOf(node) inside
  hideOutside (observer.js:132) targets nodes that never carry a pending
  callback in reachable states (an exit callback is created only after
  the node has left activeOutside, under a fresh instance id), so it has
  no modelled effect.
- Out-of-range section element access (sections[sectionIndex] with an
  index outside the array) would throw in JS; it is modelled as a no-op
  and proved unreachable from initialised states via the bounds invariant.
-/

namespace Meera

/- data-position values naming the four outside layers (observer.js:33-38). -/
inductive Pos
  | left
  | right
  | top
  | bottom
  deriving DecidableEq, Repr

/- data-enter values for step templates; center is the default and also
covers any unrecognised string (observer.js:193-196). -/
inductive EnterDir
  | left
  | right
  | center
  deriving DecidableEq, Repr

/- A step template: whether tpl.content.firstElementChild exists (so the
clone at observer.js:189 succeeds) and the parsed data-enter attribute. -/
structure StepTemplate where
  hasContent : Bool
  enter : EnterDir
  deriving DecidableEq, Repr

/- An outside template: Number(tpl.dataset.step) parsed (none models NaN,
which compares unequal to every step at observer.js:153), the parsed
data-position when it names a layer key, and clonability of its content. -/
structure OutsideTemplate where
  step : Option Int
  position : Option Pos
  hasContent : Bool
  deriving DecidableEq, Repr

/- A .section element: its step templates and outside templates in
document order (observer.js:78-80, 103-105). -/
structure Section where
  steps : List StepTemplate
  outside : List OutsideTemplate
  deriving DecidableEq, Repr

/- Presence of the four outside layer containers; getElementById may
return null for any of them (observer.js:33-38). -/
structure Layers where
  left : Bool
  right : Bool
  top : Bool
  bottom : Bool
  deriving DecidableEq, Repr

def Layers.get (ly : Layers) : Pos → Bool
  | Pos.left => ly.left
  | Pos.right => ly.right
  | Pos.top => ly.top
  | Pos.bottom => ly.bottom

/- The static document data the initialised navigator closes over. -/
structure Config where
  sections : List Section
  layers : Layers
  deriving DecidableEq, Repr

/- A cloned step node mounted in #device-content. -/
structure DevNode where
  step : Nat
  enter : EnterDir
  deriving DecidableEq, Repr

/- A cloned outside node: a fresh instance id plus the layer it was
appended to (observer.js:162, 176). -/
structure OutsideInst where
  id : Nat
  position : Pos
  deriving DecidableEq, Repr

/- Animations started, in order.  sectionSlide stands for the paired
timeline tweens sliding the outgoing and incoming sections
(observer.js:256-270). -/
inductive Effect
  | stepFadeOut
  | stepEnter (enter : EnterDir)
  | outsideExit (id : Nat)
  | outsideEnter (id : Nat)
  | sectionSlide (fromIdx : Nat) (toIdx : Nat)
  deriving DecidableEq, Repr

/- Pending completion callbacks:
- devFade: the fade-out tween on the device children; its onComplete
  swaps the device DOM and starts the enter tween (observer.js:201-222).
- devEnter: the enter tween on the new content; its onComplete clears
  isAnimating (observer.js:216-218).
- outExit: an outside exit tween; its onComplete removes the node
  (observer.js:137).
- swap: the timeline callback added at 70 percent of the slide duration,
  committing the new position and rendering its content
  (observer.js:272-278). -/
inductive Pending
  | devFade (node : DevNode)
  | devEnter (node : DevNode)
  | outExit (id : Nat)
  | swap (nextIndex : Nat) (entryStep : Nat)
  deriving DecidableEq, Repr

def Pending.isDevEnter : Pending → Bool
  | Pending.devEnter _ => true
  | _ => false

/- Full machine state: the closure variables of initObserver
(observer.js:68-73), the owned DOM subtrees, a fresh-id counter for
cloned outside nodes, the pending callback queue and the effect log. -/
structure MState where
  sectionIndex : Nat
  stepIndex : Nat
  isAnimating : Bool
  activeOutside : List OutsideInst
  outsideDom : List OutsideInst
  deviceDom : List DevNode
  nextId : Nat
  pending : List Pending
  log : List Effect
  deriving DecidableEq, Repr

def mstate0 : MState :=
  { sectionIndex := 0, stepIndex := 0, isAnimating := false,
    activeOutside := [], outsideDom := [], deviceDom := [],
    nextId := 0, pending := [], log := [] }

/- observer.js:78-80 -/
def getStepTemplates (sec : Section) : List StepTemplate :=
  sec.steps

/- observer.js:103-105 -/
def getOutsideTemplates (sec : Section) : List OutsideTemplate :=
  sec.outside

/- Math.max(steps.length - 1, 0) at observer.js:94; Nat subtraction
already truncates at 0, the max mirrors the source expression. -/
def lastStepIndex (sec : Section) : Nat :=
  max (getStepTemplates sec).length.pred 0

/- observer.js:92-101 -/
def getEntryStepIndex (sec : Section) (direction : Int) : Nat :=
  let last := lastStepIndex sec
  if direction > 0 then min 1 last else last

/- gsap.killTweensOf(deviceContent.children) at observer.js:184: drops the
pending fade/enter callbacks attached to device-content tweens. -/
def killDeviceTweens (s : MState) : MState :=
  { s with pending := s.pending.filter fun p =>
      match p with
      | Pending.devFade _ => false
      | Pending.devEnter _ => false
      | _ => true }

/- observer.js:128-142: schedule an exit tween for every active outside
node (whose completion removes it from the DOM) and clear the set. -/
def hideOutside (s : MState) : MState :=
  if s.activeOutside.isEmpty then s
  else
    { s with
      activeOutside := [],
      pending := s.pending ++ s.activeOutside.map fun i => Pending.outExit i.id,
      log := s.log ++ s.activeOutside.map fun i => Effect.outsideExit i.id }

/- The instances cloned by the showOutside loop (observer.js:151-177), in
template order, threading the fresh-id counter: a template is cloned when
its parsed data-step equals the target step, its data-position names a
present layer and its content has a first element child. -/
def shownList (ly : Layers) (step : Nat) : List OutsideTemplate → Nat → List OutsideInst
  | [], _ => []
  | t :: rest, nid =>
    match t.step with
    | none => shownList ly step rest nid
    | some k =>
      if k = (step : Int) then
        match t.position with
        | none => shownList ly step rest nid
        | some pos =>
          if ly.get pos then
            if t.hasContent then
              { id := nid, position := pos } :: shownList ly step rest (nid + 1)
            else shownList ly step rest nid
          else shownList ly step rest nid
      else shownList ly step rest nid

/- observer.js:148-178: each shown clone is appended to its layer,
animated in, and pushed onto activeOutside. -/
def showOutside (c : Config) (sec : Section) (step : Nat) (s : MState) : MState :=
  let shown := shownList c.layers step (getOutsideTemplates sec) s.nextId
  { s with
    activeOutside := s.activeOutside ++ shown,
    outsideDom := s.outsideDom ++ shown,
    nextId := s.nextId + shown.length,
    log := s.log ++ shown.map fun i => Effect.outsideEnter i.id }

/- observer.js:183-223.  Missing template or unclonable content returns
after the killTweensOf call; otherwise isAnimating is set and the
fade-out tween is started, whose completion swaps the DOM and starts the
enter tween. -/
def renderDeviceStep (sec : Section) (step : Nat) (s : MState) : MState :=
  let s1 := killDeviceTweens s
  match (getStepTemplates sec)[step]? with
  | none => s1
  | some tpl =>
    if tpl.hasContent then
      { s1 with
        isAnimating := true,
        pending := s1.pending ++ [Pending.devFade { step := step, enter := tpl.enter }],
        log := s1.log ++ [Effect.stepFadeOut] }
    else s1

/- observer.js:235-279.  Bounds and busy guards, then: set isAnimating,
drop the current outside decorations, start the paired slide tweens and
add the content-swap callback at 70 percent of the slide duration.  The
timeline onComplete is empty (observer.js:250-253). -/
def goToSection (c : Config) (nextIndex : Int) (direction : Int) (s : MState) : MState :=
  if nextIndex < 0 ∨ (c.sections.length : Int) ≤ nextIndex then s
  else if s.isAnimating then s
  else
    match c.sections[nextIndex.toNat]? with
    | none => s
    | some next =>
      let entryStep := getEntryStepIndex next direction
      let s1 := hideOutside { s with isAnimating := true }
      { s1 with
        pending := s1.pending ++ [Pending.swap nextIndex.toNat entryStep],
        log := s1.log ++ [Effect.sectionSlide s1.sectionIndex nextIndex.toNat] }

/- observer.js:284-304 -/
def goForward (c : Config) (s : MState) : MState :=
  if s.isAnimating then s
  else
    match c.sections[s.sectionIndex]? with
    | none => s
    | some sec =>
      let steps := getStepTemplates sec
      if s.stepIndex < steps.length - 1 then
        let s1 := hideOutside { s with stepIndex := s.stepIndex + 1 }
        showOutside c sec s1.stepIndex (renderDeviceStep sec s1.stepIndex s1)
      else if s.sectionIndex < c.sections.length - 1 then
        goToSection c ((s.sectionIndex : Int) + 1) 1 (hideOutside s)
      else s

/- observer.js:306-325 -/
def goBackward (c : Config) (s : MState) : MState :=
  if s.isAnimating then s
  else
    match c.sections[s.sectionIndex]? with
    | none => s
    | some sec =>
      if 0 < s.stepIndex then
        let s1 := hideOutside { s with stepIndex := s.stepIndex - 1 }
        showOutside c sec s1.stepIndex (renderDeviceStep sec s1.stepIndex s1)
      else if 0 < s.sectionIndex then
        goToSection c ((s.sectionIndex : Int) - 1) (-1) (hideOutside s)
      else s

/- The externally triggered operation: positive direction dispatches to
goForward (Observer onDown / ArrowDown), otherwise goBackward
(observer.js:338-353). -/
def advance (c : Config) (direction : Int) (s : MState) : MState :=
  if direction > 0 then goForward c s else goBackward c s

/- Run one completion callback body. -/
def firePending (c : Config) (p : Pending) (s : MState) : MState :=
  match p with
  | Pending.devFade node =>
    { s with
      deviceDom := [node],
      pending := s.pending ++ [Pending.devEnter node],
      log := s.log ++ [Effect.stepEnter node.enter] }
  | Pending.devEnter _ => { s with isAnimating := false }
  | Pending.outExit id =>
    { s with outsideDom := s.outsideDom.filter fun i => i.id != id }
  | Pending.swap nextIndex entryStep =>
    match c.sections[nextIndex]? with
    | none => s
    | some next =>
      showOutside c next entryStep
        (renderDeviceStep next entryStep
          { s with sectionIndex := nextIndex, stepIndex := entryStep })

/- Fire the next pending callback in queue order. -/
def fireNext (c : Config) (s : MState) : MState :=
  match s.pending with
  | [] => s
  | p :: rest => firePending c p { s with pending := rest }

/- Run pending callbacks in queue order until none remain (fuel-bounded). -/
def settle (c : Config) : Nat → MState → MState
  | 0, s => s
  | n + 1, s =>
    match s.pending with
    | [] => s
    | _ :: _ => settle c n (fireNext c s)

/- One navigation request made on an idle navigator, followed by all of
its animation completions: the granularity at which the spec's
testable properties speak about advance calls. -/
def advanceAndSettle (c : Config) (direction : Int) (s : MState) : MState :=
  let s1 := advance c direction s
  settle c (s1.pending.length + 3) s1

/- An external event: a navigation request, or the completion of the k-th
in-flight animation (out-of-range k is a no-op).  Completions may occur
in any order here. -/
inductive NavEvent
  | adv (direction : Int)
  | complete (k : Nat)
  deriving DecidableEq, Repr

def stepE (c : Config) (s : MState) : NavEvent → MState
  | NavEvent.adv d => advance c d s
  | NavEvent.complete k =>
    match s.pending[k]? with
    | none => s
    | some p => firePending c p { s with pending := s.pending.eraseIdx k }

def runEvents (c : Config) (s : MState) (evs : List NavEvent) : MState :=
  evs.foldl (stepE c) s

/- observer.js:330-333: initial render of section 0 step 0 performed by a
successful initObserver call. -/
def initState (c : Config) : MState :=
  match c.sections with
  | [] => mstate0
  | sec0 :: _ => showOutside c sec0 0 (renderDeviceStep sec0 0 mstate0)

inductive Teardown
  | noop
  | destroy
  deriving DecidableEq, Repr

/- The document as seen by initObserver's lookups (observer.js:30-38). -/
structure InitInput where
  sections : List Section
  deviceContentPresent : Bool
  layers : Layers
  deriving DecidableEq, Repr

structure InitResult where
  warned : Bool
  state : Option MState
  observerCreated : Bool
  keydownListenerAdded : Bool
  teardown : Teardown
  deriving DecidableEq, Repr

/- observer.js:26-45, 330-366: the guard at line 41 aborts with a warning
and a no-op teardown when no .section elements or no #device-content
exist; otherwise state is initialised, the gesture observer and the
keydown listener are installed and the destroy closure is returned. -/
def initObserver (inp : InitInput) : InitResult :=
  if inp.sections.isEmpty ∨ inp.deviceContentPresent = false then
    { warned := true, state := none, observerCreated := false,
      keydownListenerAdded := false, teardown := Teardown.noop }
  else
    { warned := false,
      state := some (initState { sections := inp.sections, layers := inp.layers }),
      observerCreated := true, keydownListenerAdded := true,
      teardown := Teardown.destroy }

/- Derived notions used by the claims. -/

def stepCountAt (c : Config) (i : Nat) : Nat :=
  match c.sections[i]? with
  | none => 0
  | some sec => (getStepTemplates sec).length

/- The outside templates of a section whose parsed data-step equals the
given step. -/
def matchingOutside (sec : Section) (step : Nat) : List OutsideTemplate :=
  (getOutsideTemplates sec).filter fun t => decide (t.step = some (step : Int))

/- Number of section-slide transitions recorded in an effect log. -/
def slides (l : List Effect) : Nat :=
  l.countP fun e =>
    match e with
    | Effect.sectionSlide _ _ => true
    | _ => false

/- Sequential node removal by instance id, as performed by the exit
onComplete callbacks. -/
def removeIds (dom : List OutsideInst) : List Nat → List OutsideInst
  | [] => dom
  | id :: rest => removeIds (dom.filter fun i => i.id != id) rest

/- Every pending swap callback targets a valid position. -/
/- A swap callback is well formed when it targets a section index in
range and an entry step below that section's step count. -/
def pendOk (c : Config) : Pending → Bool
  | Pending.swap j e => decide (j < c.sections.length) && decide (e < stepCountAt c j)
  | _ => true

def PendingWF (c : Config) (l : List Pending) : Prop :=
  ∀ p ∈ l, pendOk c p = true

/- The navigator bounds invariant of the spec, plus well-formedness of
queued swap callbacks. -/
def Inv (c : Config) (s : MState) : Prop :=
  s.sectionIndex < c.sections.length ∧
  s.stepIndex < stepCountAt c s.sectionIndex ∧
  PendingWF c s.pending

/- The step template found at the entry step of a section, if any, has
clonable content: exactly the condition under which renderDeviceStep
keeps the navigation busy and later clears the flag. -/
def entryContent (sec : Section) (step : Nat) : Bool :=
  match (getStepTemplates sec)[step]? with
  | none => false
  | some tpl => tpl.hasContent

/- Basic lemmas about the callback queue semantics. -/

theorem settle_nil (c : Config) (n : Nat) (s : MState) (h : s.pending = []) :
    settle c n s = s := by
  cases n <;> simp [settle, h]

theorem settle_cons (c : Config) (s : MState) (p : Pending) (rest : List Pending)
    (h : s.pending = p :: rest) (n : Nat) :
    settle c (n + 1) s = settle c n (firePending c p { s with pending := rest }) := by
  simp only [settle, fireNext, h]

theorem removeIds_cons (dom : List OutsideInst) (id : Nat) (ids : List Nat) :
    removeIds dom (id :: ids) = removeIds (dom.filter fun i => i.id != id) ids := rfl

theorem settle_exits (c : Config) :
    ∀ (ids : List Nat) (n : Nat) (s : MState) (rest : List Pending),
      s.pending = ids.map Pending.outExit ++ rest →
      settle c (ids.length + n) s =
        settle c n { s with pending := rest, outsideDom := removeIds s.outsideDom ids } := by
  intro ids
  induction ids with
  | nil =>
    intro n s rest h
    simp only [List.map_nil, List.nil_append] at h
    simp only [List.length_nil, Nat.zero_add, removeIds, ← h]
  | cons id tl ih =>
    intro n s rest h
    simp only [List.map_cons, List.cons_append] at h
    have hl : (id :: tl).length + n = (tl.length + n) + 1 := by
      simp [List.length_cons]; omega
    rw [hl, settle_cons c s (Pending.outExit id) (tl.map Pending.outExit ++ rest) h]
    simp only [firePending]
    rw [ih n _ rest rfl]
    rfl

theorem settle_devchain (c : Config) (s : MState) (node : DevNode)
    (h : s.pending = [Pending.devFade node]) (n : Nat) :
    settle c (n + 2) s =
      { s with deviceDom := [node], pending := [], isAnimating := false,
               log := s.log ++ [Effect.stepEnter node.enter] } := by
  have h2 : n + 2 = (n + 1) + 1 := rfl
  rw [h2, settle_cons c s (Pending.devFade node) [] h]
  simp only [firePending, List.nil_append]
  rw [settle_cons c _ (Pending.devEnter node) [] rfl]
  simp only [firePending]
  exact settle_nil c n _ rfl

/- hideOutside rewritten as an unconditional record update; the early
return for an empty active set coincides with appending nothing. -/
theorem hideOutside_eq (s : MState) :
    hideOutside s =
      { s with activeOutside := [],
               pending := s.pending ++ s.activeOutside.map fun i => Pending.outExit i.id,
               log := s.log ++ s.activeOutside.map fun i => Effect.outsideExit i.id } := by
  obtain ⟨si, st, ia, ao, od, dd, ni, pe, lg⟩ := s
  cases ao <;> simp [hideOutside]

/- Projection facts for the state operations. -/

theorem showOutside_proj (c : Config) (sec : Section) (st : Nat) (s : MState) :
    (showOutside c sec st s).sectionIndex = s.sectionIndex ∧
    (showOutside c sec st s).stepIndex = s.stepIndex ∧
    (showOutside c sec st s).isAnimating = s.isAnimating ∧
    (showOutside c sec st s).pending = s.pending ∧
    (showOutside c sec st s).deviceDom = s.deviceDom := by
  refine ⟨rfl, rfl, rfl, rfl, rfl⟩

theorem renderDeviceStep_proj (sec : Section) (st : Nat) (s : MState) :
    (renderDeviceStep sec st s).sectionIndex = s.sectionIndex ∧
    (renderDeviceStep sec st s).stepIndex = s.stepIndex ∧
    (renderDeviceStep sec st s).activeOutside = s.activeOutside ∧
    (renderDeviceStep sec st s).outsideDom = s.outsideDom ∧
    (renderDeviceStep sec st s).deviceDom = s.deviceDom ∧
    (renderDeviceStep sec st s).nextId = s.nextId := by
  unfold renderDeviceStep killDeviceTweens
  cases (getStepTemplates sec)[st]? with
  | none => exact ⟨rfl, rfl, rfl, rfl, rfl, rfl⟩
  | some tpl =>
    by_cases h : tpl.hasContent = true
    · simp [h]
    · simp [h]

theorem renderDeviceStep_busy (sec : Section) (st : Nat) (s : MState)
    (h : s.isAnimating = true) : (renderDeviceStep sec st s).isAnimating = true := by
  unfold renderDeviceStep killDeviceTweens
  cases (getStepTemplates sec)[st]? with
  | none => exact h
  | some tpl =>
    by_cases hc : tpl.hasContent = true
    · simp [hc]
    · simp [hc, h]

/- A busy navigator ignores both navigation directions (observer.js:285,
307): the state, queue and log are untouched. -/
theorem advance_busy (c : Config) (d : Int) (s : MState) (h : s.isAnimating = true) :
    advance c d s = s := by
  unfold advance goForward goBackward
  by_cases hd : d > 0 <;> simp [hd, h]

/- Counting section transitions in the log. -/

theorem slides_append (l m : List Effect) : slides (l ++ m) = slides l + slides m := by
  simp [slides, List.countP_append]

theorem slides_outsideExit_map (f : List OutsideInst) :
    slides (f.map fun i => Effect.outsideExit i.id) = 0 := by
  induction f with
  | nil => rfl
  | cons a tl ih => simp_all [slides, List.countP_cons]

theorem slides_outsideEnter_map (f : List OutsideInst) :
    slides (f.map fun i => Effect.outsideEnter i.id) = 0 := by
  induction f with
  | nil => rfl
  | cons a tl ih => simp_all [slides, List.countP_cons]

theorem slides_stepFadeOut : slides [Effect.stepFadeOut] = 0 := rfl

theorem slides_stepEnter (e : EnterDir) : slides [Effect.stepEnter e] = 0 := rfl

/- The killTweensOf filter leaves outside-exit callbacks untouched. -/
theorem killFilter_exits (l : List OutsideInst) :
    ((l.map fun i => Pending.outExit i.id).filter fun p =>
      match p with
      | Pending.devFade _ => false
      | Pending.devEnter _ => false
      | _ => true) = l.map fun i => Pending.outExit i.id := by
  induction l with
  | nil => rfl
  | cons a tl ih => simp [List.filter_cons, ih]

theorem exits_eq_map_map (ao : List OutsideInst) :
    (ao.map fun i => Pending.outExit i.id) = (ao.map fun i => i.id).map Pending.outExit := by
  rw [List.map_map]
  rfl

/- settle_exits restated over the active instance list itself. -/
theorem settle_exits' (c : Config) (ao : List OutsideInst) (n : Nat) (s : MState)
    (rest : List Pending)
    (h : s.pending = (ao.map fun i => Pending.outExit i.id) ++ rest) :
    settle c (ao.length + n) s =
      settle c n { s with pending := rest,
                          outsideDom := removeIds s.outsideDom (ao.map fun i => i.id) } := by
  have hlen : ao.length = (ao.map fun i => i.id).length := by simp
  rw [hlen]
  exact settle_exits c (ao.map fun i => i.id) n s rest (by rw [h, exits_eq_map_map])

/- In-section forward navigation on an idle navigator, followed by its
animation completions: the step index advances by one, the section index
is untouched, the navigator ends idle with an empty queue, no
section-slide tween is started, and when the target template cannot be
cloned the device content is left in place. -/
theorem advF_inSection (c : Config) (s : MState) (sec : Section)
    (hsec : c.sections[s.sectionIndex]? = some sec)
    (hanim : s.isAnimating = false)
    (hpend : s.pending = [])
    (hlt : s.stepIndex < (getStepTemplates sec).length - 1) :
    (advanceAndSettle c 1 s).sectionIndex = s.sectionIndex ∧
    (advanceAndSettle c 1 s).stepIndex = s.stepIndex + 1 ∧
    (advanceAndSettle c 1 s).isAnimating = false ∧
    (advanceAndSettle c 1 s).pending = [] ∧
    slides (advanceAndSettle c 1 s).log = slides s.log ∧
    (entryContent sec (s.stepIndex + 1) = false →
      (advanceAndSettle c 1 s).deviceDom = s.deviceDom) := by
  obtain ⟨si, st, ia, ao, od, dd, ni, pe, lg⟩ := s
  simp only at hsec hanim hpend hlt
  subst hanim hpend
  have hidx : st + 1 < (getStepTemplates sec).length := by omega
  have hlook : (getStepTemplates sec)[st + 1]? = some ((getStepTemplates sec)[st + 1]) :=
    List.getElem?_eq_getElem hidx
  have hadv : advance c 1 (MState.mk si st false ao od dd ni [] lg) =
      showOutside c sec (st + 1) (renderDeviceStep sec (st + 1)
        (hideOutside (MState.mk si (st + 1) false ao od dd ni [] lg))) := by
    simp [advance, goForward, hsec, hlt, hideOutside_eq]
  rw [advanceAndSettle, hadv, hideOutside_eq]
  simp only [List.nil_append]
  by_cases hc : ((getStepTemplates sec)[st + 1]).hasContent = true
  · -- clonable target template: fade-out, swap, enter, then idle
    have hrender : renderDeviceStep sec (st + 1)
        (MState.mk si (st + 1) false [] od dd ni
          (ao.map fun i => Pending.outExit i.id)
          (lg ++ ao.map fun i => Effect.outsideExit i.id)) =
        MState.mk si (st + 1) true [] od dd ni
          ((ao.map fun i => Pending.outExit i.id) ++
            [Pending.devFade (DevNode.mk (st + 1) ((getStepTemplates sec)[st + 1]).enter)])
          ((lg ++ ao.map fun i => Effect.outsideExit i.id) ++ [Effect.stepFadeOut]) := by
      rw [renderDeviceStep]
      simp only [killDeviceTweens]
      rw [hlook]
      simp [hc, killFilter_exits]
    rw [hrender]
    rw [showOutside]
    simp only [List.length_append, List.length_map, List.length_cons, List.length_nil]
    have hfuel : ao.length + 1 + 3 = ao.length + 4 := by omega
    rw [hfuel]
    rw [settle_exits' c ao 4 _
      [Pending.devFade (DevNode.mk (st + 1) ((getStepTemplates sec)[st + 1]).enter)] rfl]
    rw [settle_devchain c _ _ rfl 2]
    refine ⟨rfl, rfl, rfl, rfl, ?_, ?_⟩
    · simp only [slides_append, slides_outsideExit_map, slides_outsideEnter_map,
        slides_stepFadeOut, slides_stepEnter]
      omega
    · intro hec
      rw [entryContent, hlook] at hec
      simp [hc] at hec
  · -- target template present but not clonable: render is skipped
    have hrender : renderDeviceStep sec (st + 1)
        (MState.mk si (st + 1) false [] od dd ni
          (ao.map fun i => Pending.outExit i.id)
          (lg ++ ao.map fun i => Effect.outsideExit i.id)) =
        MState.mk si (st + 1) false [] od dd ni
          (ao.map fun i => Pending.outExit i.id)
          (lg ++ ao.map fun i => Effect.outsideExit i.id) := by
      rw [renderDeviceStep]
      simp only [killDeviceTweens]
      rw [hlook]
      simp [hc, killFilter_exits]
    rw [hrender]
    rw [showOutside]
    simp only [List.length_map]
    rw [settle_exits' c ao 3 _ [] (by simp)]
    rw [settle_nil c 3 _ rfl]
    refine ⟨rfl, rfl, rfl, rfl, ?_, fun _ => rfl⟩
    simp only [slides_append, slides_outsideExit_map, slides_outsideEnter_map]
    omega

/- Core of a section transition on an idle navigator with no active
outside nodes and only exit callbacks queued: after the slide's swap
callback and the remaining completions, the committed position is the
target section at its entry step; the navigator ends idle exactly when
the entry step's template was clonable, and busy forever otherwise. -/
theorem goToSection_settle (c : Config) (t : MState) (ao : List OutsideInst)
    (j d : Int) (next : Section)
    (hanim : t.isAnimating = false)
    (hao : t.activeOutside = [])
    (hpend : t.pending = ao.map fun i => Pending.outExit i.id)
    (hj0 : 0 ≤ j)
    (hj : c.sections[j.toNat]? = some next) :
    (settle c ((goToSection c j d t).pending.length + 3) (goToSection c j d t)).sectionIndex
        = j.toNat ∧
    (settle c ((goToSection c j d t).pending.length + 3) (goToSection c j d t)).stepIndex
        = getEntryStepIndex next d ∧
    (settle c ((goToSection c j d t).pending.length + 3) (goToSection c j d t)).pending = [] ∧
    (settle c ((goToSection c j d t).pending.length + 3) (goToSection c j d t)).isAnimating
        = !(entryContent next (getEntryStepIndex next d)) := by
  obtain ⟨si, st, ia, aot, od, dd, ni, pe, lg⟩ := t
  simp only at hanim hao hpend
  subst hanim hao hpend
  have hjlen : j.toNat < c.sections.length := by
    rcases List.getElem?_eq_some_iff.mp hj with ⟨hh, _⟩
    exact hh
  have hg : goToSection c j d (MState.mk si st false [] od dd ni
      (ao.map fun i => Pending.outExit i.id) lg) =
      MState.mk si st true [] od dd ni
        ((ao.map fun i => Pending.outExit i.id) ++
          [Pending.swap j.toNat (getEntryStepIndex next d)])
        (lg ++ [Effect.sectionSlide si j.toNat]) := by
    rw [goToSection]
    have hc1 : ¬(j < 0 ∨ (c.sections.length : Int) ≤ j) := by omega
    rw [if_neg hc1]
    simp only [if_false, Bool.false_eq_true, if_neg (by simp : ¬(false = true))]
    rw [hj]
    simp [hideOutside]
  rw [hg]
  simp only [List.length_append, List.length_map, List.length_cons, List.length_nil]
  have hfuel : ao.length + 1 + 3 = ao.length + 4 := by omega
  rw [hfuel]
  rw [settle_exits' c ao 4 _ [Pending.swap j.toNat (getEntryStepIndex next d)] rfl]
  rw [settle_cons c _ (Pending.swap j.toNat (getEntryStepIndex next d)) [] rfl 3]
  simp only [firePending]
  rw [hj]
  cases hE : (getStepTemplates next)[getEntryStepIndex next d]? with
  | none =>
    simp only [renderDeviceStep, killDeviceTweens, hE, List.filter_nil]
    rw [showOutside]
    rw [settle_nil c 3 _ rfl]
    refine ⟨rfl, rfl, rfl, ?_⟩
    simp [entryContent, hE]
  | some tpl =>
    by_cases hc : tpl.hasContent = true
    · simp only [renderDeviceStep, killDeviceTweens, hE, List.filter_nil, hc, if_true]
      rw [showOutside]
      rw [settle_devchain c _ _ rfl 1]
      refine ⟨rfl, rfl, rfl, ?_⟩
      simp [entryContent, hE, hc]
    · simp only [renderDeviceStep, killDeviceTweens, hE, List.filter_nil, hc, if_false]
      rw [showOutside]
      rw [settle_nil c 3 _ rfl]
      refine ⟨rfl, rfl, rfl, ?_⟩
      simp only [entryContent, hE]
      simp [Bool.eq_false_iff.mpr hc]

/- Forward section transition from the last step of a section. -/
theorem advF_transition (c : Config) (s : MState) (sec next : Section)
    (hsec : c.sections[s.sectionIndex]? = some sec)
    (hanim : s.isAnimating = false)
    (hpend : s.pending = [])
    (hlast : s.stepIndex = lastStepIndex sec)
    (hnext : c.sections[s.sectionIndex + 1]? = some next) :
    (advanceAndSettle c 1 s).sectionIndex = s.sectionIndex + 1 ∧
    (advanceAndSettle c 1 s).stepIndex = getEntryStepIndex next 1 ∧
    (advanceAndSettle c 1 s).pending = [] ∧
    (advanceAndSettle c 1 s).isAnimating
        = !(entryContent next (getEntryStepIndex next 1)) := by
  have hlen1 : s.sectionIndex + 1 < c.sections.length := by
    rcases List.getElem?_eq_some_iff.mp hnext with ⟨hh, _⟩
    exact hh
  have hlsi : lastStepIndex sec = (getStepTemplates sec).length - 1 := by
    unfold lastStepIndex
    rw [Nat.pred_eq_sub_one]
    exact Nat.max_eq_left (Nat.zero_le _)
  have hstep : ¬(s.stepIndex < (getStepTemplates sec).length - 1) := by omega
  have hsecb : s.sectionIndex < c.sections.length - 1 := by omega
  have hadv : advance c 1 s = goToSection c ((s.sectionIndex : Int) + 1) 1 (hideOutside s) := by
    simp [advance, goForward, hanim, hsec, hstep, hsecb]
  have htn : ((s.sectionIndex : Int) + 1).toNat = s.sectionIndex + 1 := by omega
  have hj : c.sections[((s.sectionIndex : Int) + 1).toNat]? = some next := by
    rw [htn]; exact hnext
  have core := goToSection_settle c (hideOutside s) s.activeOutside
    ((s.sectionIndex : Int) + 1) 1 next
    (by rw [hideOutside_eq]; exact hanim)
    (by rw [hideOutside_eq])
    (by rw [hideOutside_eq]; simp [hpend])
    (by omega) hj
  rw [advanceAndSettle, hadv]
  rw [htn] at core
  exact core

/- Backward section transition from step 0 of a section. -/
theorem advB_transition (c : Config) (s : MState) (sec prev : Section)
    (hsec : c.sections[s.sectionIndex]? = some sec)
    (hanim : s.isAnimating = false)
    (hpend : s.pending = [])
    (hzero : s.stepIndex = 0)
    (hpos : 0 < s.sectionIndex)
    (hprev : c.sections[s.sectionIndex - 1]? = some prev) :
    (advanceAndSettle c (-1) s).sectionIndex = s.sectionIndex - 1 ∧
    (advanceAndSettle c (-1) s).stepIndex = getEntryStepIndex prev (-1) ∧
    (advanceAndSettle c (-1) s).pending = [] ∧
    (advanceAndSettle c (-1) s).isAnimating
        = !(entryContent prev (getEntryStepIndex prev (-1))) := by
  have hstep : ¬(0 < s.stepIndex) := by omega
  have hadv : advance c (-1) s
      = goToSection c ((s.sectionIndex : Int) - 1) (-1) (hideOutside s) := by
    simp [advance, goBackward, hanim, hsec, hstep, hpos]
  have htn : ((s.sectionIndex : Int) - 1).toNat = s.sectionIndex - 1 := by omega
  have hj : c.sections[((s.sectionIndex : Int) - 1).toNat]? = some prev := by
    rw [htn]; exact hprev
  have core := goToSection_settle c (hideOutside s) s.activeOutside
    ((s.sectionIndex : Int) - 1) (-1) prev
    (by rw [hideOutside_eq]; exact hanim)
    (by rw [hideOutside_eq])
    (by rw [hideOutside_eq]; simp [hpend])
    (by omega) hj
  rw [advanceAndSettle, hadv]
  rw [htn] at core
  exact core

/- Removal by id removes all previously active nodes. -/
theorem mem_removeIds (x : OutsideInst) :
    ∀ (ids : List Nat) (dom : List OutsideInst),
      x ∈ removeIds dom ids → x ∈ dom ∧ x.id ∉ ids := by
  intro ids
  induction ids with
  | nil => intro dom h; exact ⟨h, by simp⟩
  | cons id tl ih =>
    intro dom h
    rw [removeIds_cons] at h
    obtain ⟨hmem, hnot⟩ := ih _ h
    rw [List.mem_filter] at hmem
    refine ⟨hmem.1, ?_⟩
    intro hx
    rcases List.mem_cons.mp hx with h1 | h2
    · simp [h1] at hmem
    · exact hnot h2

/- Invariant machinery: the bounds invariant is preserved by every
operation, for any completion order. -/

theorem PendingWF_append (c : Config) (l1 l2 : List Pending)
    (h1 : PendingWF c l1) (h2 : PendingWF c l2) : PendingWF c (l1 ++ l2) := by
  intro p hp
  rcases List.mem_append.mp hp with h | h
  · exact h1 p h
  · exact h2 p h

theorem PendingWF_exits (c : Config) (ao : List OutsideInst) :
    PendingWF c (ao.map fun i => Pending.outExit i.id) := by
  intro p hp
  rcases List.mem_map.mp hp with ⟨i, _, rfl⟩
  rfl

theorem PendingWF_filter (c : Config) (l : List Pending) (f : Pending → Bool)
    (h : PendingWF c l) : PendingWF c (l.filter f) := by
  intro p hp
  exact h p (List.mem_of_mem_filter hp)

theorem PendingWF_render (c : Config) (sec : Section) (st : Nat) (s : MState)
    (h : PendingWF c s.pending) : PendingWF c (renderDeviceStep sec st s).pending := by
  have hf : PendingWF c (s.pending.filter fun p =>
      match p with
      | Pending.devFade _ => false
      | Pending.devEnter _ => false
      | _ => true) := PendingWF_filter c _ _ h
  unfold renderDeviceStep killDeviceTweens
  cases (getStepTemplates sec)[st]? with
  | none => exact hf
  | some tpl =>
    by_cases hc : tpl.hasContent = true
    · simp only [hc, if_true]
      refine PendingWF_append c _ _ hf ?_
      intro p hp
      rw [List.mem_singleton.mp hp]
      rfl
    · simp only [hc, if_false]
      exact hf

theorem inv_hideOutside (c : Config) (s : MState) (h : Inv c s) :
    Inv c (hideOutside s) := by
  obtain ⟨h1, h2, h3⟩ := h
  rw [hideOutside_eq]
  exact ⟨h1, h2, PendingWF_append c _ _ h3 (PendingWF_exits c _)⟩

theorem inv_render_show (c : Config) (sec : Section) (nk : Nat) (t : MState)
    (h1 : t.sectionIndex < c.sections.length)
    (h2 : t.stepIndex < stepCountAt c t.sectionIndex)
    (h3 : PendingWF c t.pending) :
    Inv c (showOutside c sec nk (renderDeviceStep sec nk t)) := by
  refine ⟨?_, ?_, ?_⟩
  · have e1 : (showOutside c sec nk (renderDeviceStep sec nk t)).sectionIndex
        = t.sectionIndex := (renderDeviceStep_proj sec nk t).1
    rw [e1]
    exact h1
  · have e1 : (showOutside c sec nk (renderDeviceStep sec nk t)).sectionIndex
        = t.sectionIndex := (renderDeviceStep_proj sec nk t).1
    have e2 : (showOutside c sec nk (renderDeviceStep sec nk t)).stepIndex
        = t.stepIndex := (renderDeviceStep_proj sec nk t).2.1
    rw [e1, e2]
    exact h2
  · exact PendingWF_render c sec nk t h3

theorem lastStepIndex_sub_one (sec : Section) :
    lastStepIndex sec = (getStepTemplates sec).length - 1 := by
  unfold lastStepIndex
  rw [Nat.pred_eq_sub_one]
  exact Nat.max_eq_left (Nat.zero_le _)

theorem getEntryStepIndex_lt (sec : Section) (d : Int)
    (hlen : 0 < (getStepTemplates sec).length) :
    getEntryStepIndex sec d < (getStepTemplates sec).length := by
  unfold getEntryStepIndex
  rw [show (if d > 0 then min 1 (lastStepIndex sec) else lastStepIndex sec)
        = (if d > 0 then min 1 (lastStepIndex sec) else lastStepIndex sec) from rfl]
  have hls := lastStepIndex_sub_one sec
  by_cases hd : d > 0
  · simp only [hd, if_true]
    omega
  · simp only [hd, if_false]
    omega

theorem inv_goToSection (c : Config)
    (hne : ∀ sec ∈ c.sections, 0 < (getStepTemplates sec).length)
    (j d : Int) (t : MState) (h : Inv c t) : Inv c (goToSection c j d t) := by
  obtain ⟨h1, h2, h3⟩ := h
  unfold goToSection
  by_cases hb : j < 0 ∨ (c.sections.length : Int) ≤ j
  · simp only [hb, if_true]
    exact ⟨h1, h2, h3⟩
  · simp only [hb, if_false]
    by_cases ha : t.isAnimating = true
    · simp only [ha, if_true]
      exact ⟨h1, h2, h3⟩
    · simp only [ha, if_false]
      have hjl : j.toNat < c.sections.length := by omega
      have hj : c.sections[j.toNat]? = some (c.sections[j.toNat]) :=
        List.getElem?_eq_getElem hjl
      rw [hj]
      have hmem : c.sections[j.toNat] ∈ c.sections := List.getElem_mem hjl
      have hlen := hne _ hmem
      have hentry : getEntryStepIndex (c.sections[j.toNat]) d
          < stepCountAt c j.toNat := by
        have := getEntryStepIndex_lt (c.sections[j.toNat]) d hlen
        have hsc : stepCountAt c j.toNat = (getStepTemplates (c.sections[j.toNat])).length := by
          simp [stepCountAt, hj]
        omega
      refine ⟨?_, ?_, ?_⟩
      · rw [hideOutside_eq]
        exact h1
      · rw [hideOutside_eq]
        exact h2
      · rw [hideOutside_eq]
        refine PendingWF_append c _ _
          (PendingWF_append c _ _ h3 (PendingWF_exits c _)) ?_
        intro p hp
        rw [List.mem_singleton.mp hp]
        simp [pendOk, hjl, hentry]

theorem inv_goForward (c : Config)
    (hne : ∀ sec ∈ c.sections, 0 < (getStepTemplates sec).length)
    (s : MState) (h : Inv c s) : Inv c (goForward c s) := by
  obtain ⟨h1, h2, h3⟩ := h
  unfold goForward
  by_cases ha : s.isAnimating = true
  · simp only [ha, if_true]
    exact ⟨h1, h2, h3⟩
  · simp only [ha, if_false]
    have hsec : c.sections[s.sectionIndex]? = some (c.sections[s.sectionIndex]) :=
      List.getElem?_eq_getElem h1
    rw [hsec]
    have hsc : stepCountAt c s.sectionIndex
        = (getStepTemplates (c.sections[s.sectionIndex])).length := by
      simp [stepCountAt, hsec]
    by_cases hst : s.stepIndex < (getStepTemplates (c.sections[s.sectionIndex])).length - 1
    · simp only [hst, if_true]
      refine inv_render_show c _ _ _ ?_ ?_ ?_
      · rw [hideOutside_eq]
        exact h1
      · rw [hideOutside_eq]
        simp only
        omega
      · rw [hideOutside_eq]
        exact PendingWF_append c _ _ h3 (PendingWF_exits c _)
    · simp only [hst, if_false]
      by_cases hsb : s.sectionIndex < c.sections.length - 1
      · simp only [hsb, if_true]
        exact inv_goToSection c hne _ _ _ (inv_hideOutside c s ⟨h1, h2, h3⟩)
      · simp only [hsb, if_false]
        exact ⟨h1, h2, h3⟩

theorem inv_goBackward (c : Config)
    (hne : ∀ sec ∈ c.sections, 0 < (getStepTemplates sec).length)
    (s : MState) (h : Inv c s) : Inv c (goBackward c s) := by
  obtain ⟨h1, h2, h3⟩ := h
  unfold goBackward
  by_cases ha : s.isAnimating = true
  · simp only [ha, if_true]
    exact ⟨h1, h2, h3⟩
  · simp only [ha, if_false]
    have hsec : c.sections[s.sectionIndex]? = some (c.sections[s.sectionIndex]) :=
      List.getElem?_eq_getElem h1
    rw [hsec]
    have hsc : stepCountAt c s.sectionIndex
        = (getStepTemplates (c.sections[s.sectionIndex])).length := by
      simp [stepCountAt, hsec]
    by_cases hst : 0 < s.stepIndex
    · simp only [hst, if_true]
      refine inv_render_show c _ _ _ ?_ ?_ ?_
      · rw [hideOutside_eq]
        exact h1
      · rw [hideOutside_eq]
        simp only
        omega
      · rw [hideOutside_eq]
        exact PendingWF_append c _ _ h3 (PendingWF_exits c _)
    · simp only [hst, if_false]
      by_cases hsb : 0 < s.sectionIndex
      · simp only [hsb, if_true]
        exact inv_goToSection c hne _ _ _ (inv_hideOutside c s ⟨h1, h2, h3⟩)
      · simp only [hsb, if_false]
        exact ⟨h1, h2, h3⟩

theorem inv_advance (c : Config)
    (hne : ∀ sec ∈ c.sections, 0 < (getStepTemplates sec).length)
    (d : Int) (s : MState) (h : Inv c s) : Inv c (advance c d s) := by
  unfold advance
  by_cases hd : d > 0
  · simp only [hd, if_true]
    exact inv_goForward c hne s h
  · simp only [hd, if_false]
    exact inv_goBackward c hne s h

theorem inv_fire (c : Config) (k : Nat) (s : MState) (h : Inv c s) :
    Inv c (stepE c s (NavEvent.complete k)) := by
  obtain ⟨h1, h2, h3⟩ := h
  simp only [stepE]
  cases hk : s.pending[k]? with
  | none => exact ⟨h1, h2, h3⟩
  | some p =>
    have hp : p ∈ s.pending := List.getElem?_mem hk
    have h3e : PendingWF c (s.pending.eraseIdx k) := by
      intro q hq
      exact h3 q (List.eraseIdx_subset _ _ hq)
    cases p with
    | devFade node =>
      refine ⟨h1, h2, ?_⟩
      refine PendingWF_append c _ _ h3e ?_
      intro q hq
      rw [List.mem_singleton.mp hq]
      rfl
    | devEnter node => exact ⟨h1, h2, h3e⟩
    | outExit id => exact ⟨h1, h2, h3e⟩
    | swap j e =>
      have hok := h3 _ hp
      simp only [pendOk, Bool.and_eq_true, decide_eq_true_eq] at hok
      obtain ⟨hjl, hel⟩ := hok
      simp only [firePending]
      have hj : c.sections[j]? = some (c.sections[j]) := List.getElem?_eq_getElem hjl
      rw [hj]
      exact inv_render_show c _ _ _ hjl hel h3e

theorem inv_stepE (c : Config)
    (hne : ∀ sec ∈ c.sections, 0 < (getStepTemplates sec).length)
    (s : MState) (e : NavEvent) (h : Inv c s) : Inv c (stepE c s e) := by
  cases e with
  | adv d => exact inv_advance c hne d s h
  | complete k => exact inv_fire c k s h

theorem inv_initState (c : Config)
    (hne : ∀ sec ∈ c.sections, 0 < (getStepTemplates sec).length)
    (h0 : c.sections ≠ []) : Inv c (initState c) := by
  unfold initState
  cases hs : c.sections with
  | nil => exact absurd hs h0
  | cons sec0 rest =>
    refine inv_render_show c _ _ _ ?_ ?_ ?_
    · simp [mstate0, hs]
    · have hm : sec0 ∈ c.sections := by
        rw [hs]
        exact List.mem_cons_self sec0 rest
      have := hne sec0 hm
      simp [mstate0, stepCountAt, hs]
      omega
    · intro p hp
      simp [mstate0] at hp

theorem inv_runEvents (c : Config)
    (hne : ∀ sec ∈ c.sections, 0 < (getStepTemplates sec).length) :
    ∀ (evs : List NavEvent) (s : MState), Inv c s → Inv c (runEvents c s evs) := by
  intro evs
  induction evs with
  | nil => intro s h; exact h
  | cons e tl ih =>
    intro s h
    exact ih (stepE c s e) (inv_stepE c hne s e h)

/- Characterisation of the showOutside loop under the documented DOM
contract: every matching template carries a position naming a present
layer and clonable content, so exactly the matching templates are
instantiated, in order. -/
theorem shownList_spec (ly : Layers) (step : Nat) :
    ∀ (tpls : List OutsideTemplate) (nid : Nat),
      (∀ t ∈ tpls.filter fun t => decide (t.step = some (step : Int)),
        (∃ pos, t.position = some pos ∧ ly.get pos = true) ∧ t.hasContent = true) →
      (shownList ly step tpls nid).length
          = (tpls.filter fun t => decide (t.step = some (step : Int))).length ∧
      (shownList ly step tpls nid).map (fun i => some i.position)
          = (tpls.filter fun t => decide (t.step = some (step : Int))).map
              fun t => t.position := by
  intro tpls
  induction tpls with
  | nil => intro nid h; exact ⟨rfl, rfl⟩
  | cons t rest ih =>
    intro nid h
    have hrest : ∀ t' ∈ rest.filter fun t' => decide (t'.step = some (step : Int)),
        (∃ pos, t'.position = some pos ∧ ly.get pos = true) ∧ t'.hasContent = true := by
      intro t' ht'
      refine h t' ?_
      rw [List.mem_filter] at ht' ⊢
      exact ⟨List.mem_cons_of_mem _ ht'.1, ht'.2⟩
    simp only [shownList]
    cases hs : t.step with
    | none =>
      have hf : (decide (t.step = some (step : Int))) = false := by
        rw [hs]; simp
      rw [List.filter_cons, hf]
      simp only [Bool.false_eq_true, if_false]
      exact ih nid hrest
    | some k =>
      by_cases hk : k = (step : Int)
      · have hmem : t ∈ (t :: rest).filter fun t' => decide (t'.step = some (step : Int)) := by
          rw [List.mem_filter]
          refine ⟨List.mem_cons_self t rest, ?_⟩
          rw [hs, hk]
          simp
        obtain ⟨⟨pos, hpos, hly⟩, hcont⟩ := h t hmem
        have ht : (decide (t.step = some (step : Int))) = true := by
          rw [hs, hk]; simp
        rw [List.filter_cons, ht]
        simp only [if_true]
        rw [if_pos hk, hpos]
        simp only [hly, if_true, hcont]
        obtain ⟨ihl, ihm⟩ := ih (nid + 1) hrest
        refine ⟨?_, ?_⟩
        · simp only [List.length_cons, ihl]
        · simp only [List.map_cons, ihm, hpos]
      · have hf : (decide (t.step = some (step : Int))) = false := by
          rw [hs]; simp [hk]
        rw [List.filter_cons, hf]
        simp only [Bool.false_eq_true, if_false]
        rw [if_neg hk]
        exact ih nid hrest

theorem renderDeviceStep_starts (sec : Section) (st : Nat) (s : MState)
    (tpl : StepTemplate)
    (hl : (getStepTemplates sec)[st]? = some tpl) (hc : tpl.hasContent = true) :
    (renderDeviceStep sec st s).isAnimating = true := by
  unfold renderDeviceStep killDeviceTweens
  rw [hl]
  simp [hc]

/- Concrete document data used to witness the theorems below.  cDemo is
the scenario from the spec: section A with three steps and two
position-tagged outside templates, section B with a single step. -/

def layersAll : Layers :=
  { left := true, right := true, top := true, bottom := true }

def stepC : StepTemplate := { hasContent := true, enter := EnterDir.center }

def stepL : StepTemplate := { hasContent := true, enter := EnterDir.left }

def stepN : StepTemplate := { hasContent := false, enter := EnterDir.center }

def outA0 : OutsideTemplate :=
  { step := some 0, position := some Pos.left, hasContent := true }

def outA1 : OutsideTemplate :=
  { step := some 1, position := some Pos.top, hasContent := true }

def secA : Section := { steps := [stepC, stepL, stepC], outside := [outA0, outA1] }

def secB : Section := { steps := [stepC], outside := [] }

def secHalf : Section := { steps := [stepC, stepN], outside := [] }

def secEmptySteps : Section := { steps := [], outside := [] }

def cDemo : Config := { sections := [secA, secB], layers := layersAll }

def cStuck : Config := { sections := [secB, secEmptySteps, secB], layers := layersAll }

def cHalf : Config := { sections := [secHalf], layers := layersAll }

def cZero : Config := { sections := [secEmptySteps], layers := layersAll }

def sBusy : MState := { mstate0 with isAnimating := true }

/- An idle state tracking one mounted outside node. -/
def tAct : MState :=
  { mstate0 with
    activeOutside := [OutsideInst.mk 0 Pos.left],
    outsideDom := [OutsideInst.mk 0 Pos.left] }

/- A busy state whose only in-flight animation is the device fade. -/
def sFade : MState :=
  { mstate0 with
    isAnimating := true,
    pending := [Pending.devFade (DevNode.mk 0 EnterDir.center)] }

/- A state whose only in-flight animation is the device enter tween. -/
def sEnter : MState :=
  { mstate0 with
    isAnimating := true,
    pending := [Pending.devEnter (DevNode.mk 0 EnterDir.center)] }

/-- C1: for every section with N steps (N at least 1), starting from step
0 of that section on an idle navigator, each of the N-1 successive
advance(+1) requests (each followed by its animation completions)
increments stepIndex by exactly one, visiting steps 0..N-1 in order,
never changing sectionIndex and never starting a section-slide
transition. -/
theorem claim1_steps_in_order (c : Config) (s0 : MState) (sec : Section)
    (hsec : c.sections[s0.sectionIndex]? = some sec)
    (hstart : s0.stepIndex = 0)
    (hanim : s0.isAnimating = false)
    (hpend : s0.pending = []) :
    ∀ k, k ≤ (getStepTemplates sec).length - 1 →
      ((advanceAndSettle c 1)^[k] s0).sectionIndex = s0.sectionIndex ∧
      ((advanceAndSettle c 1)^[k] s0).stepIndex = k ∧
      ((advanceAndSettle c 1)^[k] s0).isAnimating = false ∧
      ((advanceAndSettle c 1)^[k] s0).pending = [] ∧
      slides ((advanceAndSettle c 1)^[k] s0).log = slides s0.log := by
  intro k
  induction k with
  | zero =>
    intro _
    exact ⟨rfl, hstart, hanim, hpend, rfl⟩
  | succ k ih =>
    intro hk
    obtain ⟨i1, i2, i3, i4, i5⟩ := ih (Nat.le_of_succ_le hk)
    rw [Function.iterate_succ_apply']
    have hsec' : c.sections[((advanceAndSettle c 1)^[k] s0).sectionIndex]? = some sec := by
      rw [i1]
      exact hsec
    have hlt : ((advanceAndSettle c 1)^[k] s0).stepIndex
        < (getStepTemplates sec).length - 1 := by omega
    obtain ⟨a1, a2, a3, a4, a5, _⟩ :=
      advF_inSection c ((advanceAndSettle c 1)^[k] s0) sec hsec' i3 i4 hlt
    refine ⟨?_, ?_, a3, a4, ?_⟩
    · rw [a1, i1]
    · rw [a2, i2]
    · rw [a5, i5]

theorem claim1_witness :
    cDemo.sections[mstate0.sectionIndex]? = some secA ∧
    mstate0.stepIndex = 0 ∧ mstate0.isAnimating = false ∧ mstate0.pending = [] ∧
    2 ≤ (getStepTemplates secA).length - 1 ∧
    (((advanceAndSettle cDemo 1)^[2] mstate0).sectionIndex = mstate0.sectionIndex ∧
      ((advanceAndSettle cDemo 1)^[2] mstate0).stepIndex = 2 ∧
      ((advanceAndSettle cDemo 1)^[2] mstate0).isAnimating = false ∧
      ((advanceAndSettle cDemo 1)^[2] mstate0).pending = [] ∧
      slides ((advanceAndSettle cDemo 1)^[2] mstate0).log = slides mstate0.log) :=
  ⟨by decide, rfl, rfl, rfl, by decide,
    claim1_steps_in_order cDemo mstate0 secA (by decide) rfl rfl rfl 2 (by decide)⟩

/-- C2: advance(+1) on an idle navigator standing at the last step of
section i with a following section transitions (after the slide and its
completions) to section i+1 at entry step min(1, lastStepOf(i+1)), which
is 1 when the target section has at least two steps and 0 otherwise. -/
theorem claim2_forward_entry (c : Config) (s : MState) (sec next : Section)
    (hsec : c.sections[s.sectionIndex]? = some sec)
    (hanim : s.isAnimating = false)
    (hpend : s.pending = [])
    (hlast : s.stepIndex = lastStepIndex sec)
    (hnext : c.sections[s.sectionIndex + 1]? = some next) :
    (advanceAndSettle c 1 s).sectionIndex = s.sectionIndex + 1 ∧
    (advanceAndSettle c 1 s).stepIndex = min 1 (lastStepIndex next) ∧
    (advanceAndSettle c 1 s).stepIndex
        = (if 2 ≤ (getStepTemplates next).length then 1 else 0) := by
  obtain ⟨a1, a2, _, _⟩ := advF_transition c s sec next hsec hanim hpend hlast hnext
  have he : getEntryStepIndex next 1 = min 1 (lastStepIndex next) := by
    simp [getEntryStepIndex]
  refine ⟨a1, ?_, ?_⟩
  · rw [a2, he]
  · rw [a2, he]
    have hls := lastStepIndex_sub_one next
    by_cases h2 : 2 ≤ (getStepTemplates next).length
    · simp only [h2, if_true]
      omega
    · simp only [h2, if_false]
      omega

theorem claim2_witness :
    cDemo.sections[({ mstate0 with stepIndex := 2 } : MState).sectionIndex]? = some secA ∧
    ({ mstate0 with stepIndex := 2 } : MState).isAnimating = false ∧
    ({ mstate0 with stepIndex := 2 } : MState).pending = [] ∧
    ({ mstate0 with stepIndex := 2 } : MState).stepIndex = lastStepIndex secA ∧
    cDemo.sections[({ mstate0 with stepIndex := 2 } : MState).sectionIndex + 1]?
        = some secB ∧
    ((advanceAndSettle cDemo 1 { mstate0 with stepIndex := 2 }).sectionIndex
        = ({ mstate0 with stepIndex := 2 } : MState).sectionIndex + 1 ∧
      (advanceAndSettle cDemo 1 { mstate0 with stepIndex := 2 }).stepIndex
        = min 1 (lastStepIndex secB) ∧
      (advanceAndSettle cDemo 1 { mstate0 with stepIndex := 2 }).stepIndex
        = (if 2 ≤ (getStepTemplates secB).length then 1 else 0)) :=
  ⟨by decide, rfl, rfl, by decide, by decide,
    claim2_forward_entry cDemo { mstate0 with stepIndex := 2 } secA secB
      (by decide) rfl rfl (by decide) (by decide)⟩

/-- C3: advance(-1) on an idle navigator standing at step 0 of section i
(i positive) transitions (after the slide and its completions) to
section i-1 at that section's last step index. -/
theorem claim3_backward_entry (c : Config) (s : MState) (sec prev : Section)
    (hsec : c.sections[s.sectionIndex]? = some sec)
    (hanim : s.isAnimating = false)
    (hpend : s.pending = [])
    (hzero : s.stepIndex = 0)
    (hpos : 0 < s.sectionIndex)
    (hprev : c.sections[s.sectionIndex - 1]? = some prev) :
    (advanceAndSettle c (-1) s).sectionIndex = s.sectionIndex - 1 ∧
    (advanceAndSettle c (-1) s).stepIndex = lastStepIndex prev := by
  obtain ⟨a1, a2, _, _⟩ :=
    advB_transition c s sec prev hsec hanim hpend hzero hpos hprev
  have he : getEntryStepIndex prev (-1) = lastStepIndex prev := by
    simp [getEntryStepIndex]
  exact ⟨a1, by rw [a2, he]⟩

theorem claim3_witness :
    cDemo.sections[({ mstate0 with sectionIndex := 1 } : MState).sectionIndex]?
        = some secB ∧
    ({ mstate0 with sectionIndex := 1 } : MState).isAnimating = false ∧
    ({ mstate0 with sectionIndex := 1 } : MState).pending = [] ∧
    ({ mstate0 with sectionIndex := 1 } : MState).stepIndex = 0 ∧
    0 < ({ mstate0 with sectionIndex := 1 } : MState).sectionIndex ∧
    cDemo.sections[({ mstate0 with sectionIndex := 1 } : MState).sectionIndex - 1]?
        = some secA ∧
    ((advanceAndSettle cDemo (-1) { mstate0 with sectionIndex := 1 }).sectionIndex
        = ({ mstate0 with sectionIndex := 1 } : MState).sectionIndex - 1 ∧
      (advanceAndSettle cDemo (-1) { mstate0 with sectionIndex := 1 }).stepIndex
        = lastStepIndex secA) :=
  ⟨by decide, rfl, rfl, rfl, by decide, by decide,
    claim3_backward_entry cDemo { mstate0 with sectionIndex := 1 } secB secA
      (by decide) rfl rfl rfl (by decide) (by decide)⟩

/-- C4: on an idle navigator, advance(-1) at (0,0) and advance(+1) at the
last step of the last section return the state entirely unchanged: same
indices, same busy flag, same active outside set, no callback queued and
no animation logged. -/
theorem claim4_boundary_noop (c : Config) (s t : MState) (secL : Section)
    (hanim : s.isAnimating = false)
    (hsec0 : s.sectionIndex = 0)
    (hstep0 : s.stepIndex = 0)
    (hanimt : t.isAnimating = false)
    (hsecL : c.sections[t.sectionIndex]? = some secL)
    (hlastSec : t.sectionIndex = c.sections.length - 1)
    (hlastStep : t.stepIndex = lastStepIndex secL) :
    advance c (-1) s = s ∧ advance c 1 t = t := by
  constructor
  · have hd : advance c (-1) s = goBackward c s := by
      simp [advance]
    rw [hd]
    obtain ⟨si, st, ia, ao, od, dd, ni, pe, lg⟩ := s
    simp only at hanim hsec0 hstep0
    subst hanim hsec0 hstep0
    cases hl : c.sections[0]? with
    | none => simp [goBackward, hl]
    | some sec => simp [goBackward, hl]
  · have hd : advance c 1 t = goForward c t := by
      simp [advance]
    rw [hd]
    have hls := lastStepIndex_sub_one secL
    have hlen : t.sectionIndex < c.sections.length := by
      rcases List.getElem?_eq_some_iff.mp hsecL with ⟨hh, _⟩
      exact hh
    obtain ⟨si, st, ia, ao, od, dd, ni, pe, lg⟩ := t
    simp only at hanimt hsecL hlastSec hlastStep hlen
    subst hanimt
    have h1 : ¬(st < (getStepTemplates secL).length - 1) := by omega
    have h2 : ¬(si < c.sections.length - 1) := by omega
    simp [goForward, hsecL, h1, h2]

theorem claim4_witness :
    mstate0.isAnimating = false ∧ mstate0.sectionIndex = 0 ∧ mstate0.stepIndex = 0 ∧
    ({ mstate0 with sectionIndex := 1 } : MState).isAnimating = false ∧
    cDemo.sections[({ mstate0 with sectionIndex := 1 } : MState).sectionIndex]?
        = some secB ∧
    ({ mstate0 with sectionIndex := 1 } : MState).sectionIndex
        = cDemo.sections.length - 1 ∧
    ({ mstate0 with sectionIndex := 1 } : MState).stepIndex = lastStepIndex secB ∧
    (advance cDemo (-1) mstate0 = mstate0 ∧
      advance cDemo 1 { mstate0 with sectionIndex := 1 }
        = { mstate0 with sectionIndex := 1 }) :=
  ⟨rfl, rfl, rfl, rfl, by decide, by decide, by decide,
    claim4_boundary_noop cDemo mstate0 { mstate0 with sectionIndex := 1 } secB
      rfl rfl rfl rfl (by decide) (by decide) (by decide)⟩

/-- C5: while isAnimating is true, any advance call in either direction
returns the state entirely unchanged: position, busy flag, active
outside set, callback queue and animation log are untouched, so the
dropped request is neither executed nor deferred and no two section
transitions can overlap. -/
theorem claim5_busy_drop (c : Config) (d : Int) (s : MState)
    (h : s.isAnimating = true) :
    advance c d s = s :=
  advance_busy c d s h

theorem claim5_witness :
    sBusy.isAnimating = true ∧ advance cDemo 1 sBusy = sBusy :=
  ⟨rfl, claim5_busy_drop cDemo 1 sBusy rfl⟩

/-- C6: under the documented DOM contract (each matching outside template
names a present layer and has clonable content), showOutside called with
an empty active set makes the active set exactly one cloned instance per
outside template of the section whose data-step equals the step, in
order, each mounted in the layer named by its data-position; and
hideOutside empties the active set immediately and, once its exit
animations complete, every previously active node is removed from the
outside DOM. -/
theorem claim6_outside_sync (c : Config) (sec : Section) (step : Nat) (s t : MState)
    (hactive : s.activeOutside = [])
    (hwf : ∀ tpl ∈ matchingOutside sec step,
      (tpl.position.any fun pos => c.layers.get pos) = true ∧ tpl.hasContent = true)
    (hpend : t.pending = []) :
    (showOutside c sec step s).activeOutside.length = (matchingOutside sec step).length ∧
    (showOutside c sec step s).activeOutside.map (fun i => some i.position)
        = (matchingOutside sec step).map (fun tpl => tpl.position) ∧
    (showOutside c sec step s).outsideDom
        = s.outsideDom ++ (showOutside c sec step s).activeOutside ∧
    (hideOutside t).activeOutside = [] ∧
    (settle c ((hideOutside t).pending.length + 3) (hideOutside t)).activeOutside = [] ∧
    ∀ inst ∈ t.activeOutside,
      inst ∉ (settle c ((hideOutside t).pending.length + 3) (hideOutside t)).outsideDom := by
  have hwf' : ∀ t' ∈ matchingOutside sec step,
      (∃ pos, t'.position = some pos ∧ c.layers.get pos = true) ∧ t'.hasContent = true := by
    intro t' ht'
    obtain ⟨h1, h2⟩ := hwf t' ht'
    refine ⟨?_, h2⟩
    cases hp : t'.position with
    | none =>
      rw [hp] at h1
      simp [Option.any] at h1
    | some pos =>
      rw [hp] at h1
      simp [Option.any] at h1
      exact ⟨pos, rfl, h1⟩
  obtain ⟨hlen, hmap⟩ :=
    shownList_spec c.layers step (getOutsideTemplates sec) s.nextId hwf'
  have hao : (showOutside c sec step s).activeOutside
      = shownList c.layers step (getOutsideTemplates sec) s.nextId := by
    simp [showOutside, hactive]
  have key : settle c ((hideOutside t).pending.length + 3) (hideOutside t)
      = { t with activeOutside := [], pending := [],
                 outsideDom := removeIds t.outsideDom (t.activeOutside.map fun i => i.id),
                 log := t.log ++ t.activeOutside.map fun i => Effect.outsideExit i.id } := by
    rw [hideOutside_eq]
    simp only [hpend, List.nil_append, List.length_map]
    rw [settle_exits' c t.activeOutside 3 _ [] (by simp)]
    rw [settle_nil c 3 _ rfl]
  refine ⟨?_, ?_, ?_, ?_, ?_, ?_⟩
  · rw [hao]
    exact hlen
  · rw [hao]
    exact hmap
  · rw [hao]
    rfl
  · rw [hideOutside_eq]
  · rw [key]
  · rw [key]
    intro inst hmem hcontra
    obtain ⟨_, hnot⟩ := mem_removeIds inst _ _ hcontra
    exact hnot (List.mem_map_of_mem _ hmem)

theorem claim6_witness :
    mstate0.activeOutside = [] ∧
    (∀ tpl ∈ matchingOutside secA 0,
      (tpl.position.any fun pos => cDemo.layers.get pos) = true ∧ tpl.hasContent = true) ∧
    tAct.pending = [] ∧
    ((showOutside cDemo secA 0 mstate0).activeOutside.length
        = (matchingOutside secA 0).length ∧
      (showOutside cDemo secA 0 mstate0).activeOutside.map (fun i => some i.position)
        = (matchingOutside secA 0).map (fun tpl => tpl.position) ∧
      (showOutside cDemo secA 0 mstate0).outsideDom
        = mstate0.outsideDom ++ (showOutside cDemo secA 0 mstate0).activeOutside ∧
      (hideOutside tAct).activeOutside = [] ∧
      (settle cDemo ((hideOutside tAct).pending.length + 3)
        (hideOutside tAct)).activeOutside = [] ∧
      ∀ inst ∈ tAct.activeOutside,
        inst ∉ (settle cDemo ((hideOutside tAct).pending.length + 3)
          (hideOutside tAct)).outsideDom) :=
  ⟨rfl, by decide, rfl,
    claim6_outside_sync cDemo secA 0 mstate0 tAct rfl (by decide) rfl⟩

/-- C7 counterexample: with a single section that has zero step
templates (allowed by the DOM contract), the initial state (0,0) already
violates the claimed invariant stepIndex < stepCountOf(sectionIndex),
since stepCountOf(0) = 0. -/
theorem claim7_counterexample :
    (initState cZero).sectionIndex = 0 ∧
    (initState cZero).stepIndex = 0 ∧
    stepCountAt cZero 0 = 0 ∧
    ¬((initState cZero).stepIndex
        < stepCountAt cZero (initState cZero).sectionIndex) := by
  refine ⟨rfl, rfl, rfl, ?_⟩
  decide

/-- C7 (amended): provided every section has at least one step template,
the invariant sectionIndex < sectionCount and
stepIndex < stepCountOf(sectionIndex) (together with well-formedness of
any queued section-swap callback) holds at initialisation and is
preserved by every advance call and every animation completion, in any
order, hence along every event sequence. -/
theorem claim7_invariant (c : Config)
    (hne : ∀ sec ∈ c.sections, 0 < (getStepTemplates sec).length)
    (h0 : c.sections ≠ []) :
    (∀ (s : MState) (e : NavEvent), Inv c s → Inv c (stepE c s e)) ∧
    (∀ evs : List NavEvent, Inv c (runEvents c (initState c) evs)) := by
  constructor
  · intro s e h
    exact inv_stepE c hne s e h
  · intro evs
    exact inv_runEvents c hne evs (initState c) (inv_initState c hne h0)

theorem claim7_witness :
    (∀ sec ∈ cDemo.sections, 0 < (getStepTemplates sec).length) ∧
    cDemo.sections ≠ [] ∧
    Inv cDemo (runEvents cDemo (initState cDemo)
      [NavEvent.adv 1, NavEvent.complete 0, NavEvent.adv (-1)]) :=
  ⟨by decide, by decide,
    (claim7_invariant cDemo (by decide) (by decide)).2
      [NavEvent.adv 1, NavEvent.complete 0, NavEvent.adv (-1)]⟩

/-- C8 counterexample: in a document whose middle section has no step
templates, advancing forward from the last step of section 0 commits the
transition into section 1, the swap callback skips the device render (no
template), and isAnimating — set by goToSection — is never cleared: the
navigator ends at section 1 of 3 with the busy flag permanently set, and
the next advance(+1) is dropped unchanged instead of moving to section
2, so later navigation does not behave normally. -/
theorem claim8_counterexample :
    (advanceAndSettle cStuck 1 mstate0).sectionIndex = 1 ∧
    (advanceAndSettle cStuck 1 mstate0).pending = [] ∧
    (advanceAndSettle cStuck 1 mstate0).isAnimating = true ∧
    cStuck.sections.length = 3 ∧
    advance cStuck 1 (advanceAndSettle cStuck 1 mstate0)
      = advanceAndSettle cStuck 1 mstate0 := by
  refine ⟨?_, ?_, ?_, rfl, ?_⟩ <;> decide

/-- C8 (amended): when the requested step has no template (or a template
without clonable content), renderDeviceStep leaves the previous device
content in place and the update is skipped; reached from in-section
navigation the navigator stays idle, so later requests behave normally,
but reached inside a section transition's swap callback the busy flag
set by goToSection is never cleared, so every later advance call is
dropped. -/
theorem claim8_amended (c : Config) :
    (∀ (sec : Section) (step : Nat) (s : MState),
      (getStepTemplates sec)[step]? = none →
      (renderDeviceStep sec step s).deviceDom = s.deviceDom ∧
      (renderDeviceStep sec step s).isAnimating = s.isAnimating ∧
      (s.pending = [] → renderDeviceStep sec step s = s)) ∧
    (∀ (s : MState) (sec : Section) (tpl : StepTemplate),
      c.sections[s.sectionIndex]? = some sec →
      s.isAnimating = false → s.pending = [] →
      s.stepIndex < (getStepTemplates sec).length - 1 →
      (getStepTemplates sec)[s.stepIndex + 1]? = some tpl →
      tpl.hasContent = false →
      (advanceAndSettle c 1 s).stepIndex = s.stepIndex + 1 ∧
      (advanceAndSettle c 1 s).isAnimating = false ∧
      (advanceAndSettle c 1 s).pending = [] ∧
      (advanceAndSettle c 1 s).deviceDom = s.deviceDom) ∧
    (∀ (s : MState) (sec next : Section),
      c.sections[s.sectionIndex]? = some sec →
      s.isAnimating = false → s.pending = [] →
      s.stepIndex = lastStepIndex sec →
      c.sections[s.sectionIndex + 1]? = some next →
      entryContent next (getEntryStepIndex next 1) = false →
      (advanceAndSettle c 1 s).sectionIndex = s.sectionIndex + 1 ∧
      (advanceAndSettle c 1 s).isAnimating = true ∧
      ∀ d : Int, advance c d (advanceAndSettle c 1 s) = advanceAndSettle c 1 s) := by
  refine ⟨?_, ?_, ?_⟩
  · intro sec step s hnone
    obtain ⟨si, st, ia, ao, od, dd, ni, pe, lg⟩ := s
    refine ⟨?_, ?_, ?_⟩
    · simp [renderDeviceStep, killDeviceTweens, hnone]
    · simp [renderDeviceStep, killDeviceTweens, hnone]
    · intro hp
      simp only at hp
      subst hp
      simp [renderDeviceStep, killDeviceTweens, hnone]
  · intro s sec tpl hsec hanim hpend hlt hlook hcont
    obtain ⟨a1, a2, a3, a4, a5, a6⟩ := advF_inSection c s sec hsec hanim hpend hlt
    refine ⟨a2, a3, a4, a6 ?_⟩
    rw [entryContent, hlook]
    exact hcont
  · intro s sec next hsec hanim hpend hlast hnext hec
    obtain ⟨a1, a2, a3, a4⟩ := advF_transition c s sec next hsec hanim hpend hlast hnext
    have hb : (advanceAndSettle c 1 s).isAnimating = true := by
      rw [a4, hec]
      rfl
    exact ⟨a1, hb, fun d => advance_busy c d _ hb⟩

theorem claim8_witness :
    (getStepTemplates secB)[5]? = none ∧
    cHalf.sections[mstate0.sectionIndex]? = some secHalf ∧
    mstate0.isAnimating = false ∧ mstate0.pending = [] ∧
    mstate0.stepIndex < (getStepTemplates secHalf).length - 1 ∧
    (getStepTemplates secHalf)[mstate0.stepIndex + 1]? = some stepN ∧
    stepN.hasContent = false ∧
    cStuck.sections[mstate0.sectionIndex]? = some secB ∧
    mstate0.stepIndex = lastStepIndex secB ∧
    cStuck.sections[mstate0.sectionIndex + 1]? = some secEmptySteps ∧
    entryContent secEmptySteps (getEntryStepIndex secEmptySteps 1) = false ∧
    ((renderDeviceStep secB 5 sBusy).deviceDom = sBusy.deviceDom ∧
      (renderDeviceStep secB 5 sBusy).isAnimating = sBusy.isAnimating ∧
      (sBusy.pending = [] → renderDeviceStep secB 5 sBusy = sBusy)) ∧
    ((advanceAndSettle cHalf 1 mstate0).stepIndex = mstate0.stepIndex + 1 ∧
      (advanceAndSettle cHalf 1 mstate0).isAnimating = false ∧
      (advanceAndSettle cHalf 1 mstate0).pending = [] ∧
      (advanceAndSettle cHalf 1 mstate0).deviceDom = mstate0.deviceDom) ∧
    ((advanceAndSettle cStuck 1 mstate0).sectionIndex = mstate0.sectionIndex + 1 ∧
      (advanceAndSettle cStuck 1 mstate0).isAnimating = true ∧
      ∀ d : Int, advance cStuck d (advanceAndSettle cStuck 1 mstate0)
        = advanceAndSettle cStuck 1 mstate0) :=
  ⟨by decide, by decide, rfl, rfl, by decide, by decide, rfl, by decide, by decide,
    by decide, by decide,
    (claim8_amended cHalf).1 secB 5 sBusy (by decide),
    (claim8_amended cHalf).2.1 mstate0 secHalf stepN (by decide) rfl rfl (by decide)
      (by decide) rfl,
    (claim8_amended cStuck).2.2 mstate0 secB secEmptySteps (by decide) rfl rfl
      (by decide) (by decide) (by decide)⟩

/-- C9: when no .section elements exist or the #device-content element is
absent, initialisation aborts entirely: a warning is logged, no state is
created, neither the gesture observer nor the keydown listener is
installed, and the returned teardown function is the no-op. -/
theorem claim9_init_abort (inp : InitInput)
    (h : inp.sections = [] ∨ inp.deviceContentPresent = false) :
    initObserver inp =
      { warned := true, state := none, observerCreated := false,
        keydownListenerAdded := false, teardown := Teardown.noop } := by
  unfold initObserver
  rcases h with h | h
  · rw [if_pos (Or.inl (by simp [h]))]
  · rw [if_pos (Or.inr h)]

theorem claim9_witness :
    ((InitInput.mk [] true layersAll).sections = [] ∨
      (InitInput.mk [] true layersAll).deviceContentPresent = false) ∧
    initObserver (InitInput.mk [] true layersAll) =
      { warned := true, state := none, observerCreated := false,
        keydownListenerAdded := false, teardown := Teardown.noop } :=
  ⟨Or.inl rfl, claim9_init_abort (InitInput.mk [] true layersAll) (Or.inl rfl)⟩

/-- C10: every successful step-within-section navigation (forward or
backward, with a clonable target template) sets isAnimating inside
renderDeviceStep; the flag survives every completion except that of the
device content's enter animation, which alone clears it; and while the
flag is set every advance request is dropped unchanged. -/
theorem claim10_step_busy (c : Config) :
    (∀ (s : MState) (sec : Section) (tpl : StepTemplate),
      c.sections[s.sectionIndex]? = some sec → s.isAnimating = false →
      s.stepIndex < (getStepTemplates sec).length - 1 →
      (getStepTemplates sec)[s.stepIndex + 1]? = some tpl → tpl.hasContent = true →
      (advance c 1 s).isAnimating = true) ∧
    (∀ (s : MState) (sec : Section) (tpl : StepTemplate),
      c.sections[s.sectionIndex]? = some sec → s.isAnimating = false →
      0 < s.stepIndex →
      (getStepTemplates sec)[s.stepIndex - 1]? = some tpl → tpl.hasContent = true →
      (advance c (-1) s).isAnimating = true) ∧
    (∀ (s : MState) (k : Nat),
      s.isAnimating = true →
      (s.pending[k]?.all fun p => !p.isDevEnter) = true →
      (stepE c s (NavEvent.complete k)).isAnimating = true) ∧
    (∀ (s : MState) (d : Int), s.isAnimating = true → stepE c s (NavEvent.adv d) = s) ∧
    (∀ (s : MState) (k : Nat) (node : DevNode),
      s.pending[k]? = some (Pending.devEnter node) →
      (stepE c s (NavEvent.complete k)).isAnimating = false) := by
  refine ⟨?_, ?_, ?_, ?_, ?_⟩
  · intro s sec tpl hsec hanim hlt hlook hc
    obtain ⟨si, st, ia, ao, od, dd, ni, pe, lg⟩ := s
    simp only at hsec hanim hlt hlook
    subst hanim
    have hadv : advance c 1 (MState.mk si st false ao od dd ni pe lg) =
        showOutside c sec (st + 1) (renderDeviceStep sec (st + 1)
          (hideOutside (MState.mk si (st + 1) false ao od dd ni pe lg))) := by
      simp [advance, goForward, hsec, hlt, hideOutside_eq]
    rw [hadv]
    exact renderDeviceStep_starts sec (st + 1) _ tpl hlook hc
  · intro s sec tpl hsec hanim hpos hlook hc
    obtain ⟨si, st, ia, ao, od, dd, ni, pe, lg⟩ := s
    simp only at hsec hanim hpos hlook
    subst hanim
    have hadv : advance c (-1) (MState.mk si st false ao od dd ni pe lg) =
        showOutside c sec (st - 1) (renderDeviceStep sec (st - 1)
          (hideOutside (MState.mk si (st - 1) false ao od dd ni pe lg))) := by
      simp [advance, goBackward, hsec, hpos, hideOutside_eq]
    rw [hadv]
    exact renderDeviceStep_starts sec (st - 1) _ tpl hlook hc
  · intro s k hb hnd
    simp only [stepE]
    cases hk : s.pending[k]? with
    | none => exact hb
    | some p =>
      rw [hk] at hnd
      cases p with
      | devFade node => exact hb
      | devEnter node => simp [Pending.isDevEnter, Option.any] at hnd
      | outExit i => exact hb
      | swap j e =>
        simp only [firePending]
        cases hj : c.sections[j]? with
        | none => exact hb
        | some next => exact renderDeviceStep_busy next e _ hb
  · intro s d hb
    exact advance_busy c d s hb
  · intro s k node hk
    simp only [stepE]
    rw [hk]
    rfl

theorem claim10_witness :
    cDemo.sections[mstate0.sectionIndex]? = some secA ∧
    mstate0.isAnimating = false ∧
    mstate0.stepIndex < (getStepTemplates secA).length - 1 ∧
    (getStepTemplates secA)[mstate0.stepIndex + 1]? = some stepL ∧
    stepL.hasContent = true ∧
    cDemo.sections[({ mstate0 with stepIndex := 2 } : MState).sectionIndex]?
        = some secA ∧
    0 < ({ mstate0 with stepIndex := 2 } : MState).stepIndex ∧
    (getStepTemplates secA)[({ mstate0 with stepIndex := 2 } : MState).stepIndex - 1]?
        = some stepL ∧
    sFade.isAnimating = true ∧
    (sFade.pending[0]?.all fun p => !p.isDevEnter) = true ∧
    sBusy.isAnimating = true ∧
    sEnter.pending[0]? = some (Pending.devEnter (DevNode.mk 0 EnterDir.center)) ∧
    ((advance cDemo 1 mstate0).isAnimating = true ∧
      (advance cDemo (-1) { mstate0 with stepIndex := 2 }).isAnimating = true ∧
      (stepE cDemo sFade (NavEvent.complete 0)).isAnimating = true ∧
      stepE cDemo sBusy (NavEvent.adv 1) = sBusy ∧
      (stepE cDemo sEnter (NavEvent.complete 0)).isAnimating = false) :=
  ⟨by decide, rfl, by decide, by decide, rfl, by decide, by decide, by decide, rfl,
    by decide, rfl, by decide,
    (claim10_step_busy cDemo).1 mstate0 secA stepL (by decide) rfl (by decide)
      (by decide) rfl,
    (claim10_step_busy cDemo).2.1 { mstate0 with stepIndex := 2 } secA stepL
      (by decide) rfl (by decide) (by decide) rfl,
    (claim10_step_busy cDemo).2.2.1 sFade 0 rfl (by decide),
    (claim10_step_busy cDemo).2.2.2.1 sBusy 1 rfl,
    (claim10_step_busy cDemo).2.2.2.2 sEnter 0 (DevNode.mk 0 EnterDir.center)
      (by decide)⟩

end Meera
